import Mathlib

/-!
Verification of the repro-get fetch orchestrator (`pkg/downloader/downloader.go`),
the debian/alpine distro drivers (`pkg/distro/debian/debian.go`,
`pkg/distro/alpine/alpine.go`) and the hash-generation dedupe wrapper
(`cmd/repro-get/hash_generate.go`), as a shallow embedding in Lean 4.

External collaborators of the Go code (the HTTP cache, the `dpkg-query` /
`apk info` enumerations, URL templating, the debian version library) are
modelled as explicit parameters, so that every control-flow decision of the
embedded functions mirrors the corresponding Go source line by line.
-/

namespace ReproGet

/-- Debian package identity, mirroring `dpkgutil.Dpkg` as used by
`pkg/distro/debian/debian.go` (fields `Package`, `Version`, `Architecture`). -/
structure Dpkg where
  package : String
  version : String
  architecture : String
deriving DecidableEq, Repr

/-- Alpine package identity, mirroring `apkutil.APK` as used by
`pkg/distro/alpine/alpine.go` (fields `Package`, `Version`). -/
structure APK where
  package : String
  version : String
deriving DecidableEq, Repr

/-- The fields of `filespec.FileSpec` that the downloader and the distro
drivers read: `Name`, `Basename`, `SHA256`, and the optional distro-specific
identities `Dpkg` and `APK` (nil pointers in Go become `Option` here). -/
structure FileSpec where
  name : String
  basename : String
  sha256 : String
  dpkg : Option Dpkg := none
  apk : Option APK := none
deriving DecidableEq, Repr

/-- An observable cache / network access made by `Download`:
`cachedCall sha` records a call to `cache.Cached(sha)` and
`ensureCall url sha` records a call to `cache.Ensure(ctx, url, sha)` (the
only operation that touches the network). -/
inductive Event where
  | cachedCall (sha256 : String)
  | ensureCall (url : String) (sha256 : String)
deriving DecidableEq, Repr

/-- The environment a `Download` call runs against: the distro driver's
installed-check, the cache's existence check and fetch, and the FileSpec URL
templating (`sp.URL(provider)`, whose Go error result becomes `none`).
All four are external to `downloader.go`. -/
structure Env where
  isPackageVersionInstalled : FileSpec → Except String Bool
  cached : String → Except String Bool
  ensure : String → String → Except String Unit
  specURL : FileSpec → String → Option String

/-- Mirror of `downloader.Opts` (fields `Providers`, `SkipInstalled`). -/
structure Opts where
  providers : List String
  skipInstalled : Bool
deriving DecidableEq, Repr

/-- The part of `distro.Info` that `Download` reads: `DefaultProviders`. -/
structure Info where
  defaultProviders : List String
deriving DecidableEq, Repr

/-- The provider loop of `Download` (downloader.go lines 82-97): for each
provider resolve the URL (a resolution failure aborts at once with the
"failed to determine the URL" error, attempting nothing further), then call
`cache.Ensure`; on success break, on failure fall through to the next
provider unless this was the last one, in which case the
"failed to download" error is returned. The returned list is the trace of
cache/network accesses made. -/
def tryProviders (env : Env) (sp : FileSpec) : List String → Except String Unit × List Event
  | [] => (.ok (), [])
  | p :: rest =>
    match env.specURL sp p with
    | none =>
      (.error ("failed to determine the URL of " ++ sp.name ++ " with the provider " ++ p), [])
    | some u =>
      match env.ensure u sp.sha256 with
      | .ok _ => (.ok (), [.ensureCall u sp.sha256])
      | .error e =>
        if rest.isEmpty then
          (.error ("failed to download " ++ sp.basename ++ " (" ++ u ++ "): " ++ e),
           [.ensureCall u sp.sha256])
        else
          let r := tryProviders env sp rest
          (r.1, .ensureCall u sp.sha256 :: r.2)

/-- The skip-if-installed test of `Download` (downloader.go lines 61-71):
with `SkipInstalled` set, ask the driver; an error from the driver is logged
and treated as "not installed". -/
def skipAsInstalled (env : Env) (opts : Opts) (sp : FileSpec) : Bool :=
  opts.skipInstalled &&
    (match env.isPackageVersionInstalled sp with
     | .ok b => b
     | .error _ => false)

/-- The cached-check of `Download` (downloader.go lines 72-76): ask the
cache; an error is logged and treated as "not cached". -/
def cachedCheck (env : Env) (sp : FileSpec) : Bool :=
  match env.cached sp.sha256 with
  | .ok b => b
  | .error _ => false

/-- The body of `Download`'s per-spec loop (downloader.go lines 56-99):
skip-if-installed yields nothing; a cache hit yields the spec
with no fetch; a cache miss runs the provider loop. A satisfied spec is
handed back for accumulation into `res.PackagesToBeInstalled`. -/
def processSpec (env : Env) (opts : Opts) (providers : List String) (sp : FileSpec) :
    Except String (Option FileSpec) × List Event :=
  if skipAsInstalled env opts sp then
    (.ok none, [])
  else if cachedCheck env sp then
    (.ok (some sp), [.cachedCall sp.sha256])
  else
    match tryProviders env sp providers with
    | (.ok _, evs) => (.ok (some sp), .cachedCall sp.sha256 :: evs)
    | (.error e, evs) => (.error e, .cachedCall sp.sha256 :: evs)

/-- The fold of `Download` over the sorted file specs: the first failing spec
aborts the whole batch with its error (no result list at all); otherwise the
satisfied specs are accumulated in processing order. -/
def downloadLoop (env : Env) (opts : Opts) (providers : List String) :
    List FileSpec → Except String (List FileSpec) × List Event
  | [] => (.ok [], [])
  | sp :: rest =>
    match processSpec env opts providers sp with
    | (.error e, evs) => (.error e, evs)
    | (.ok o, evs) =>
      match downloadLoop env opts providers rest with
      | (.error e, evs2) => (.error e, evs ++ evs2)
      | (.ok l, evs2) =>
        (.ok (match o with | none => l | some s => s :: l), evs ++ evs2)

/-- Lexicographic comparison on character lists, the order `sort.Strings`
sorts by (byte order on UTF-8 strings coincides with code-point order).
It is proved below to agree with the `≤` of `String`. -/
def listCharLE : List Char → List Char → Bool
  | [], _ => true
  | _ :: _, [] => false
  | c :: a, d :: b => if c = d then listCharLE a b else decide (c < d)

/-- Lexicographic string comparison, executable form of `· ≤ ·`. -/
def strLE (a b : String) : Bool :=
  listCharLE a.toList b.toList

/-- Key comparison used to order the file specs: Go's `sort.Strings` on the
map keys is lexicographic byte order, which on the embedded pairs is the
lexicographic order of the first components. -/
def keyLE (a b : String × FileSpec) : Bool :=
  strLE a.1 b.1

/-- Sorting step of `Download` (downloader.go lines 41-45): the Go code
collects the map keys, sorts them with `sort.Strings` and walks
`fileSpecs[fname]` in that order; on an association list with unique keys
(a Go map) this is sorting the pairs by key. -/
def sortPairs (fileSpecs : List (String × FileSpec)) : List (String × FileSpec) :=
  List.insertionSort (fun a b => keyLE a b = true) fileSpecs

/-- Mirror of `sort.Strings`: sort a string list lexicographically (the
embedding uses insertion sort; any correct sort produces the same list). -/
def sortStrings (l : List String) : List String :=
  List.insertionSort (fun a b => strLE a b = true) l

/-- Mirror of `downloader.Download` (downloader.go lines 25-101): provider
defaulting against `d.Info().DefaultProviders`, the empty-provider
configuration error, and the per-spec loop over the key-sorted specs.
The Go `map[string]*filespec.FileSpec` argument is embedded as an
association list with unique keys. The nil-driver and nil-cache guards of
lines 26-31 have no counterpart here because both collaborators are always
present in the embedding. -/
def Download (env : Env) (info : Info) (fileSpecs : List (String × FileSpec)) (opts : Opts) :
    Except String (List FileSpec) × List Event :=
  let providers := if opts.providers.isEmpty then info.defaultProviders else opts.providers
  if providers.isEmpty then
    (.error "provider needs to be specified", [])
  else
    downloadLoop env opts providers ((sortPairs fileSpecs).map Prod.snd)

/-- Lookup in an association list used to embed a Go map: the most recent
insertion is stored at the head, so the first match wins. -/
def alookup (m : List (String × String)) (k : String) : Option String :=
  (m.find? (fun e => e.1 = k)).map (fun e => e.2)

/-- Mirror of `(*debian).IsPackageVersionInstalled` (debian.go lines 160-180):
a FileSpec without `Dpkg` identity is an error; the installed map (an external
`dpkg-query` enumeration, keyed by `Package` or `Package:Architecture`) is
passed in explicitly, with its possible failure. -/
def debianIsPackageVersionInstalled (installed : Except String (List (String × Dpkg)))
    (sp : FileSpec) : Except String Bool :=
  match sp.dpkg with
  | none => .error ("dpkg information not available for " ++ sp.name)
  | some dp =>
    match installed with
    | .error e => .error ("failed to detect installed dpkgs: " ++ e)
    | .ok pkgs =>
      let k := if dp.architecture = "" then dp.package else dp.package ++ ":" ++ dp.architecture
      match (pkgs.find? (fun e => e.1 = k)).map (fun e => e.2) with
      | none => .ok false
      | some inst => .ok (inst.version = dp.version)

/-- Mirror of `(*alpine).IsPackageVersionInstalled` (alpine.go lines 150-166):
a FileSpec without `APK` identity is an error; the installed map (an external
`apk info -v` enumeration, keyed by package name) is passed in explicitly. -/
def alpineIsPackageVersionInstalled (installed : Except String (List (String × APK)))
    (sp : FileSpec) : Except String Bool :=
  match sp.apk with
  | none => .error ("apk information not available for " ++ sp.name)
  | some ap =>
    match installed with
    | .error e => .error ("failed to detect installed apks: " ++ e)
    | .ok pkgs =>
      match (pkgs.find? (fun e => e.1 = ap.package)).map (fun e => e.2) with
      | none => .ok false
      | some inst => .ok (inst.version = ap.version)

/-- The name-defaulting prologue of `(*debian).GenerateHash` (debian.go lines
71-84): an empty `FilterByName` defaults to the keys of the external
`Installed()` map (whose failure propagates), erroring when that map is
empty; the resulting names are sorted before being handed to `apt-cache`. -/
def debianGenerateHashNames (installed : Except String (List String))
    (filterByName : List String) : Except String (List String) :=
  if filterByName.isEmpty then
    match installed with
    | .error e => .error e
    | .ok keys =>
      if keys.isEmpty then .error "no package is installed?"
      else .ok (sortStrings keys)
  else .ok (sortStrings filterByName)

/-- The prologue of `(*alpine).GenerateHash` (alpine.go lines 53-70): the
cache is required first; then the same name defaulting against the external
`Installed()` map as in the debian driver. -/
def alpineGenerateHashNames (cachePresent : Bool) (installed : Except String (List String))
    (filterByName : List String) : Except String (List String) :=
  if !cachePresent then .error "cache is required"
  else if filterByName.isEmpty then
    match installed with
    | .error e => .error e
    | .ok keys =>
      if keys.isEmpty then .error "no package is installed?"
      else .ok (sortStrings keys)
  else .ok (sortStrings filterByName)

/-- The fields of a `control.BinaryParagraph` that `generateHash`
(debian.go lines 106-151) reads: the package name and the `Version`,
`Architecture`, `Filename` and `SHA256` values (a missing value of a Go
paragraph map is the empty string). -/
structure ControlParagraph where
  package : String
  architecture : String
  version : String
  filename : String
  sha256 : String
deriving DecidableEq, Repr

/-- One step of the duplicate-version decision of `generateHash` (debian.go
lines 117-133): a paragraph whose (package, architecture) key was already
seen is skipped when either recorded or current version fails to parse, or
when the recorded version compares strictly greater than the current one.
The version library (`pault.ag/go/debian/version`) is abstracted as the
`vparse` / `vcmp` parameters. -/
def paragraphSkipped {V : Type} (vparse : String → Option V) (vcmp : V → V → Int)
    (seen : List (String × String)) (f : ControlParagraph) : Bool :=
  match alookup seen (f.package ++ ":" ++ f.architecture) with
  | none => false
  | some seenV =>
    match vparse seenV with
    | none => true
    | some sv =>
      match vparse f.version with
      | none => true
      | some v => vcmp sv v > 0

/-- Mirror of the debian `generateHash` loop (debian.go lines 115-150) over a
parsed paragraph list, with the `HashWriter` embedded as a `keep` predicate
(the writer of hash_generate.go either emits a line, which never fails in
this model, or — when wrapped for dedupe — silently drops the entry): each
non-skipped paragraph updates the `seen` map and emits its
(SHA256, Filename) pair when both fields are non-empty and `keep` accepts
it. -/
def generateHash {V : Type} (vparse : String → Option V) (vcmp : V → V → Int)
    (keep : String → String → Bool) (seen : List (String × String)) :
    List ControlParagraph → List (String × String)
  | [] => []
  | f :: rest =>
    if paragraphSkipped vparse vcmp seen f then
      generateHash vparse vcmp keep seen rest
    else
      let seen2 := (f.package ++ ":" ++ f.architecture, f.version) :: seen
      if f.filename = "" then generateHash vparse vcmp keep seen2 rest
      else if f.sha256 = "" then generateHash vparse vcmp keep seen2 rest
      else if keep f.sha256 f.filename then
        (f.sha256, f.filename) :: generateHash vparse vcmp keep seen2 rest
      else generateHash vparse vcmp keep seen2 rest

/-- The unwrapped `HashWriter` of hash_generate.go: every entry is written. -/
def keepAll : String → String → Bool := fun _ _ => true

/-- Mirror of the dedupe wrapper of `hashGenerateAction` (hash_generate.go
lines 72-78): an entry is dropped exactly when the prior manifest's Go map
yields the same digest for the filename, a missing key yielding `""`. -/
def dedupeKeep (oldSums : List (String × String)) : String → String → Bool :=
  fun sha256sum filename => !((alookup oldSums filename).getD "" = sha256sum)

/-- Modelled from the spec: the external debian version library
(`pault.ag/go/debian/version`, not part of this repository) supplies the
"version-ordering tie-break" of the spec; it implements the standard dpkg
ordering. Character weight of the dpkg string comparison: digits count 0,
letters their code, the tilde sorts below everything, other characters above
all letters. -/
def debOrder (c : Char) : Int :=
  if c.isDigit then 0
  else if c.isAlpha then (c.toNat : Int)
  else if c = '~' then -1
  else (c.toNat : Int) + 256

/-- Modelled from the spec: the non-digit phase of the dpkg fragment
comparison — scan while either side has a non-digit head, an exhausted side
weighing 0; the first weight difference decides, otherwise both advance.
The fuel argument bounds the iterations; total input length suffices. -/
def debNonDigitCmp : Nat → List Char → List Char → Option Int × (List Char × List Char)
  | 0, a, b => (none, (a, b))
  | fuel + 1, c :: a, d :: b =>
    if ¬c.isDigit ∨ ¬d.isDigit then
      if debOrder c ≠ debOrder d then (some (debOrder c - debOrder d), ([], []))
      else debNonDigitCmp fuel a b
    else (none, (c :: a, d :: b))
  | fuel + 1, c :: a, [] =>
    if ¬c.isDigit then
      if debOrder c ≠ 0 then (some (debOrder c), ([], []))
      else debNonDigitCmp fuel a []
    else (none, (c :: a, []))
  | fuel + 1, [], d :: b =>
    if ¬d.isDigit then
      if (0 : Int) ≠ debOrder d then (some (0 - debOrder d), ([], []))
      else debNonDigitCmp fuel [] b
    else (none, ([], d :: b))
  | _ + 1, [], [] => (none, ([], []))

/-- Modelled from the spec: the digit phase of the dpkg fragment comparison —
consume digits from both sides, remembering the first digit difference. -/
def debDigitCmp : List Char → List Char → Int → Int × (List Char × List Char)
  | c :: a, d :: b, firstDiff =>
    if c.isDigit ∧ d.isDigit then
      debDigitCmp a b (if firstDiff = 0 then (c.toNat : Int) - (d.toNat : Int) else firstDiff)
    else (firstDiff, (c :: a, d :: b))
  | a, b, firstDiff => (firstDiff, (a, b))

/-- Modelled from the spec: the dpkg version-fragment comparison loop
(alternating non-digit and numeric phases, numeric parts compared after
stripping leading zeroes, a longer numeric run winning). The fuel argument
bounds the number of outer iterations; each non-final iteration consumes at
least one character, so total input length plus one always suffices. -/
def debVerrevcmp (fuel : Nat) (a b : List Char) : Int :=
  match fuel with
  | 0 => 0
  | fuel + 1 =>
    if a = [] ∧ b = [] then 0
    else
      match debNonDigitCmp (a.length + b.length + 1) a b with
      | (some r, _) => r
      | (none, (a1, b1)) =>
        let a2 := a1.dropWhile (fun c => c = '0')
        let b2 := b1.dropWhile (fun c => c = '0')
        match debDigitCmp a2 b2 0 with
        | (fd, (a3, b3)) =>
          let headDigit : List Char → Bool := fun l =>
            match l with
            | c :: _ => c.isDigit
            | [] => false
          if headDigit a3 then 1
          else if headDigit b3 then -1
          else if fd ≠ 0 then fd
          else debVerrevcmp fuel a3 b3

/-- Modelled from the spec: a parsed debian version — numeric epoch, upstream
version and revision (kept as character lists). -/
structure DebVersion where
  epoch : Nat
  upstream : List Char
  revision : List Char
deriving DecidableEq, Repr

/-- Split a character list on a separator character. -/
def splitOnChar (sep : Char) : List Char → List (List Char)
  | [] => [[]]
  | c :: rest =>
    let r := splitOnChar sep rest
    if c = sep then [] :: r
    else
      match r with
      | h :: t => (c :: h) :: t
      | [] => [[c]]

/-- Join character lists with a separator character. -/
def joinWithChar (sep : Char) : List (List Char) → List Char
  | [] => []
  | [h] => h
  | h :: t => h ++ sep :: joinWithChar sep t

/-- Read a non-empty all-digit character list as a number. -/
def natOfDigits : Nat → List Char → Option Nat
  | acc, [] => some acc
  | acc, c :: rest =>
    if c.isDigit then natOfDigits (acc * 10 + (c.toNat - 48)) rest else none

/-- Strip leading and trailing whitespace. -/
def trimChars (l : List Char) : List Char :=
  ((l.dropWhile Char.isWhitespace).reverse.dropWhile Char.isWhitespace).reverse

/-- Modelled from the spec: parsing a debian version string — the digits
before the first colon are the epoch (defaulting to 0; a non-numeric epoch is
a parse error, as is an empty version), the part after the last hyphen is
the revision (defaulting to empty). -/
def debVersionParse (s : String) : Option DebVersion :=
  match trimChars s.toList with
  | [] => none
  | t =>
    let (epochStr, rest) :=
      match splitOnChar ':' t with
      | [_] => (none, t)
      | e :: tail => (some e, joinWithChar ':' tail)
      | [] => (none, t)
    match
      (match epochStr with
       | none => some 0
       | some e => if e.isEmpty then none else natOfDigits 0 e) with
    | none => none
    | some ep =>
      let parts := splitOnChar '-' rest
      if parts.length ≤ 1 then some ⟨ep, rest, []⟩
      else some ⟨ep, joinWithChar '-' parts.dropLast, (parts.getLast?).getD []⟩

/-- Modelled from the spec: the debian version ordering — epochs first, then
the upstream versions, then the revisions, each by the dpkg fragment
comparison. Negative means the left version is lower. -/
def debVersionCompare (a b : DebVersion) : Int :=
  if a.epoch ≠ b.epoch then (a.epoch : Int) - (b.epoch : Int)
  else
    let u := debVerrevcmp (a.upstream.length + b.upstream.length + 1)
      a.upstream b.upstream
    if u ≠ 0 then u
    else debVerrevcmp (a.revision.length + b.revision.length + 1)
      a.revision b.revision

/-! Concrete fixtures, used to instantiate the theorems below on explicit
inputs. -/

/-- A plain file spec with no distro-specific identity. -/
def spA : FileSpec := { name := "a", basename := "a.deb", sha256 := "shaA" }

/-- A second plain file spec, with a key sorting after `spA`. -/
def spB : FileSpec := { name := "b", basename := "b.deb", sha256 := "shaB" }

/-- URL templating for the fixtures: provider string, slash, basename. -/
def urlOf (sp : FileSpec) (p : String) : Option String :=
  some (p ++ "/" ++ sp.basename)

/-- An environment where nothing is installed, nothing is cached, and every
fetch succeeds. -/
def envPlain : Env :=
  { isPackageVersionInstalled := fun _ => .ok false
    cached := fun _ => .ok false
    ensure := fun _ _ => .ok ()
    specURL := urlOf }

/-- An environment where every package is reported installed. -/
def envInstalled : Env :=
  { envPlain with isPackageVersionInstalled := fun _ => .ok true }

/-- An environment where every fetch fails. -/
def envEnsureFails : Env :=
  { envPlain with ensure := fun _ _ => .error "boom" }

/-- An environment where only the fetch from provider P1 for `spA` fails. -/
def envFirstProviderFails : Env :=
  { envPlain with ensure := fun u _ => if u = "P1/a.deb" then .error "boom" else .ok () }

/-- An environment whose URL templating always fails. -/
def envNoURL : Env :=
  { envPlain with specURL := fun _ _ => none }

/-! Helper lemmas. -/

lemma listCharLE_iff (l1 l2 : List Char) :
    listCharLE l1 l2 = true ↔ ¬ List.Lex (· < ·) l2 l1 := by
  induction l1 generalizing l2 with
  | nil =>
    constructor
    · intro _ h
      exact List.Lex.not_nil_right _ _ h
    · intro _
      rfl
  | cons c a ih =>
    cases l2 with
    | nil =>
      constructor
      · intro h
        exact absurd h (by simp [listCharLE])
      · intro h
        exact absurd List.Lex.nil h
    | cons d b =>
      by_cases hcd : c = d
      · subst hcd
        have he : listCharLE (c :: a) (c :: b) = listCharLE a b := by
          simp [listCharLE]
        rw [he, ih, List.Lex.cons_iff]
      · have he : listCharLE (c :: a) (d :: b) = decide (c < d) := by
          simp [listCharLE, hcd]
        rw [he, decide_eq_true_iff]
        constructor
        · intro h hl
          cases hl with
          | rel h2 => exact absurd h (lt_asymm h2)
          | cons h2 => exact hcd rfl
        · intro h
          rcases lt_trichotomy c d with h3 | h3 | h3
          · exact h3
          · exact absurd h3 hcd
          · exact absurd (List.Lex.rel h3) h

lemma list_char_lt_iff (l l' : List Char) : l < l' ↔ List.Lex (· < ·) l l' :=
  Iff.rfl

lemma strLE_iff (a b : String) : strLE a b = true ↔ a ≤ b := by
  rw [strLE, listCharLE_iff, String.le_iff_toList_le, ← not_lt, list_char_lt_iff]

lemma strLE_trans {a b c : String} (h1 : strLE a b = true) (h2 : strLE b c = true) :
    strLE a c = true := by
  rw [strLE_iff] at h1 h2 ⊢
  exact le_trans h1 h2

lemma strLE_total (a b : String) : strLE a b = true ∨ strLE b a = true := by
  rw [strLE_iff, strLE_iff]
  exact le_total a b

lemma strLE_antisymm {a b : String} (h1 : strLE a b = true) (h2 : strLE b a = true) :
    a = b := by
  rw [strLE_iff] at h1 h2
  exact le_antisymm h1 h2

lemma key_sorted_perm_eq :
    ∀ (l1 l2 : List (String × FileSpec)), l1.Perm l2 → (l1.map Prod.fst).Nodup →
      l1.Pairwise (fun a b => keyLE a b = true) →
      l2.Pairwise (fun a b => keyLE a b = true) → l1 = l2 := by
  intro l1
  induction l1 with
  | nil =>
    intro l2 hp _ _ _
    exact (hp.nil_eq).symm ▸ rfl
  | cons a t1 ih =>
    intro l2 hp hnd hs1 hs2
    cases l2 with
    | nil => exact absurd (hp.symm.nil_eq) (by simp)
    | cons b t2 =>
      rcases List.pairwise_cons.mp hs1 with ⟨ha1, ht1⟩
      rcases List.pairwise_cons.mp hs2 with ⟨hb2, ht2⟩
      have hnd2 : a.1 ∉ t1.map Prod.fst ∧ (t1.map Prod.fst).Nodup := by
        rw [List.map_cons, List.nodup_cons] at hnd
        exact hnd
      have hab : a = b := by
        have hbmem : b ∈ a :: t1 := hp.symm.subset (by simp)
        rcases List.mem_cons.mp hbmem with h | h
        · exact h.symm
        · have hamem : a ∈ b :: t2 := hp.subset (by simp)
          rcases List.mem_cons.mp hamem with h2 | h2
          · exact h2
          · have hle1 : keyLE a b = true := ha1 b h
            have hle2 : keyLE b a = true := hb2 a h2
            have hkey : a.1 = b.1 := strLE_antisymm hle1 hle2
            have hmem : b.1 ∈ t1.map Prod.fst := List.mem_map_of_mem Prod.fst h
            rw [← hkey] at hmem
            exact absurd hmem hnd2.1
      subst hab
      have ht : t1 = t2 := ih t2 hp.cons_inv hnd2.2 ht1 ht2
      rw [ht]

lemma processSpec_ok {env : Env} {opts : Opts} {providers : List String} {sp : FileSpec}
    {o : Option FileSpec} {evs : List Event}
    (h : processSpec env opts providers sp = (.ok o, evs)) :
    o = if skipAsInstalled env opts sp then none else some sp := by
  by_cases hskip : skipAsInstalled env opts sp
  · rw [if_pos hskip]
    rw [processSpec, if_pos hskip] at h
    simp only [Prod.mk.injEq, Except.ok.injEq] at h
    exact h.1.symm
  · rw [if_neg hskip]
    rw [processSpec, if_neg hskip] at h
    by_cases hc : cachedCheck env sp
    · rw [if_pos hc] at h
      simp only [Prod.mk.injEq, Except.ok.injEq] at h
      exact h.1.symm
    · rw [if_neg hc] at h
      rcases htp : tryProviders env sp providers with ⟨tr, tevs⟩
      rw [htp] at h
      cases tr with
      | ok _ =>
        simp only [Prod.mk.injEq, Except.ok.injEq] at h
        exact h.1.symm
      | error e => simp at h

lemma downloadLoop_ok {env : Env} {opts : Opts} {providers : List String} :
    ∀ {specs : List FileSpec} {res : List FileSpec} {evs : List Event},
      downloadLoop env opts providers specs = (.ok res, evs) →
      res = specs.filter (fun sp => !skipAsInstalled env opts sp) := by
  intro specs
  induction specs with
  | nil =>
    intro res evs h
    simp only [downloadLoop, Prod.mk.injEq, Except.ok.injEq] at h
    simp [← h.1]
  | cons sp rest ih =>
    intro res evs h
    rcases hps : processSpec env opts providers sp with ⟨pr, pevs⟩
    cases pr with
    | error e =>
      rw [downloadLoop, hps] at h
      simp at h
    | ok o =>
      rcases hdl : downloadLoop env opts providers rest with ⟨dr, devs⟩
      cases dr with
      | error e =>
        rw [downloadLoop, hps, hdl] at h
        simp at h
      | ok l =>
        rw [downloadLoop, hps, hdl] at h
        simp only [Prod.mk.injEq, Except.ok.injEq] at h
        have ho := processSpec_ok hps
        have hl := ih hdl
        by_cases hskip : skipAsInstalled env opts sp
        · rw [if_pos hskip] at ho
          subst ho
          rw [← h.1, hl]
          simp [List.filter_cons, hskip]
        · rw [if_neg hskip] at ho
          subst ho
          rw [← h.1, hl]
          simp [List.filter_cons, hskip]

lemma generateHash_filter {V : Type} (vparse : String → Option V) (vcmp : V → V → Int)
    (keep : String → String → Bool) :
    ∀ (paras : List ControlParagraph) (seen : List (String × String)),
      generateHash vparse vcmp keep seen paras =
        (generateHash vparse vcmp keepAll seen paras).filter (fun e => keep e.1 e.2) := by
  intro paras
  induction paras with
  | nil =>
    intro seen
    simp [generateHash]
  | cons f rest ih =>
    intro seen
    by_cases hs : paragraphSkipped vparse vcmp seen f
    · simp only [generateHash, if_pos hs]
      exact ih seen
    · simp only [generateHash, if_neg hs]
      by_cases hf : f.filename = ""
      · simp only [if_pos hf]
        exact ih _
      · simp only [if_neg hf]
        by_cases hsha : f.sha256 = ""
        · simp only [if_pos hsha]
          exact ih _
        · simp only [if_neg hsha, keepAll, if_true, List.filter_cons]
          by_cases hk : keep f.sha256 f.filename
          · simp only [if_pos hk, hk, List.filter_cons]
            rw [ih]
          · simp only [if_neg hk, hk, List.filter_cons]
            rw [ih]

lemma generateHash_sha_ne {V : Type} (vparse : String → Option V) (vcmp : V → V → Int)
    (keep : String → String → Bool) :
    ∀ (paras : List ControlParagraph) (seen : List (String × String)) (e : String × String),
      e ∈ generateHash vparse vcmp keep seen paras → e.1 ≠ "" := by
  intro paras
  induction paras with
  | nil =>
    intro seen e he
    simp [generateHash] at he
  | cons f rest ih =>
    intro seen e he
    by_cases hs : paragraphSkipped vparse vcmp seen f
    · rw [generateHash, if_pos hs] at he
      exact ih seen e he
    · rw [generateHash, if_neg hs] at he
      by_cases hf : f.filename = ""
      · rw [if_pos hf] at he
        exact ih _ e he
      · rw [if_neg hf] at he
        by_cases hsha : f.sha256 = ""
        · rw [if_pos hsha] at he
          exact ih _ e he
        · rw [if_neg hsha] at he
          by_cases hk : keep f.sha256 f.filename
          · rw [if_pos hk] at he
            rcases List.mem_cons.mp he with h | h
            · rw [h]
              exact hsha
            · exact ih _ e h
          · rw [if_neg hk] at he
            exact ih _ e he

/-! Claim theorems. -/

/-- C1, counterexample: a successful `Download` whose single requested spec
was skipped as already installed returns an empty result list — the
already-installed spec has no entry in `PackagesToBeInstalled` (the Go loop
hits `continue` before the append, downloader.go lines 67-70), refuting the
claim that the result lists every requested spec including already-installed
ones. -/
theorem C1_counterexample :
    Download envInstalled ⟨["P1"]⟩ [("a", spA)] ⟨["P1"], true⟩ = (.ok [], []) := by
  rfl

/-- C1 (amended): for every `Download` call that returns without error, the
result list contains exactly the requested specs that were already cached or
freshly fetched, in key order; specs skipped as already-installed are
omitted from it. -/
theorem C1_result_is_nonskipped_specs (env : Env) (info : Info)
    (fileSpecs : List (String × FileSpec)) (opts : Opts) (res : List FileSpec)
    (evs : List Event) (h : Download env info fileSpecs opts = (.ok res, evs)) :
    res = ((sortPairs fileSpecs).map Prod.snd).filter
      (fun sp => !skipAsInstalled env opts sp) := by
  simp only [Download] at h
  by_cases hp : (if opts.providers.isEmpty then info.defaultProviders else opts.providers).isEmpty
  · rw [if_pos hp] at h
    simp at h
  · rw [if_neg hp] at h
    exact downloadLoop_ok h

/-- Witness for C1 (amended) at a concrete input: one uncached spec is
fetched and is the sole entry of the result list. -/
theorem C1_result_is_nonskipped_specs_witness :
    [spA] = ((sortPairs [("a", spA)]).map Prod.snd).filter
      (fun sp => !skipAsInstalled envPlain ⟨["P1"], false⟩ sp) :=
  C1_result_is_nonskipped_specs envPlain ⟨[]⟩ [("a", spA)] ⟨["P1"], false⟩ [spA]
    [.cachedCall "shaA", .ensureCall "P1/a.deb" "shaA"] (by rfl)

/-- C5, counterexample: a `Download` call whose `opts.Providers` list is
empty neither reports a configuration error nor stays off the network — the
driver's `DefaultProviders` are substituted (downloader.go lines 33-36) and
the fetch proceeds, refuting the claim that every call with an empty
provider list yields a configuration error before any activity. -/
theorem C5_counterexample :
    Download envPlain ⟨["P1"]⟩ [("a", spA)] ⟨[], false⟩ =
      (.ok [spA], [.cachedCall "shaA", .ensureCall "P1/a.deb" "shaA"]) := by
  rfl

/-- C5 (amended): when the effective provider list is empty — `opts.Providers`
empty and the driver's `DefaultProviders` empty as well — `Download` returns
the configuration error with an empty trace, before any network or cache
activity for any file spec. -/
theorem C5_no_provider_error (env : Env) (info : Info)
    (fileSpecs : List (String × FileSpec)) (opts : Opts)
    (hop : opts.providers = []) (hinfo : info.defaultProviders = []) :
    Download env info fileSpecs opts = (.error "provider needs to be specified", []) := by
  simp [Download, hop, hinfo]

/-- Witness for C5 (amended) at a concrete input. -/
theorem C5_no_provider_error_witness :
    Download envPlain ⟨[]⟩ [("a", spA)] ⟨[], false⟩ =
      (.error "provider needs to be specified", []) :=
  C5_no_provider_error envPlain ⟨[]⟩ [("a", spA)] ⟨[], false⟩ (by rfl) (by rfl)

/-- C6: with `SkipInstalled` set and the driver reporting this exact version
installed, the per-spec step yields nothing and makes no cache or network
access at all (empty trace: neither `cache.Cached` nor `cache.Ensure` is
called), and the spec contributes nothing to the batch fold. -/
theorem C6_skip_installed_no_access (env : Env) (opts : Opts)
    (providers : List String) (sp : FileSpec) (hskip : opts.skipInstalled = true)
    (hinst : env.isPackageVersionInstalled sp = .ok true) :
    processSpec env opts providers sp = (.ok none, []) ∧
    ∀ rest : List FileSpec,
      downloadLoop env opts providers (sp :: rest) = downloadLoop env opts providers rest := by
  have hskipB : skipAsInstalled env opts sp = true := by
    simp [skipAsInstalled, hskip, hinst]
  constructor
  · rw [processSpec, if_pos hskipB]
  · intro rest
    rw [downloadLoop, processSpec, if_pos hskipB]
    rcases hdl : downloadLoop env opts providers rest with ⟨dr, devs⟩
    cases dr with
    | error e => simp
    | ok l => simp

/-- Witness for C6 at a concrete input. -/
theorem C6_skip_installed_no_access_witness :
    processSpec envInstalled ⟨["P1"], true⟩ ["P1"] spA = (.ok none, []) :=
  (C6_skip_installed_no_access envInstalled ⟨["P1"], true⟩ ["P1"] spA (by rfl) (by rfl)).1

/-- C3: when a provider's fetch (`cache.Ensure`) fails and more providers
remain, the next provider is tried (the loop result is that of the remaining
providers, after the failed attempt); when the last provider's fetch fails,
the loop stops with the "failed to download" error; and any failing spec
makes `Download`'s fold return that error immediately, with no result list
and the remaining specs unprocessed. -/
theorem C3_provider_fallback (env : Env) (sp : FileSpec) (p : String)
    (rest : List String) (u e : String) (hurl : env.specURL sp p = some u)
    (hens : env.ensure u sp.sha256 = .error e) :
    (rest ≠ [] →
      tryProviders env sp (p :: rest) =
        ((tryProviders env sp rest).1,
          .ensureCall u sp.sha256 :: (tryProviders env sp rest).2)) ∧
    (rest = [] →
      tryProviders env sp (p :: rest) =
        (.error ("failed to download " ++ sp.basename ++ " (" ++ u ++ "): " ++ e),
         [.ensureCall u sp.sha256])) ∧
    (∀ (opts : Opts) (providers : List String) (sp2 : FileSpec)
        (restSpecs : List FileSpec) (e2 : String) (evs2 : List Event),
        processSpec env opts providers sp2 = (.error e2, evs2) →
        downloadLoop env opts providers (sp2 :: restSpecs) = (.error e2, evs2)) := by
  refine ⟨?_, ?_, ?_⟩
  · intro hne
    simp only [tryProviders, hurl, hens]
    rw [if_neg (by simpa using hne)]
  · intro he
    subst he
    simp only [tryProviders, hurl, hens, List.isEmpty_nil, if_true]
  · intro opts providers sp2 restSpecs e2 evs2 h
    rw [downloadLoop, h]

/-- Witness for C3 at a concrete input: with providers [P1, P2] and P1
failing, the loop records the failed attempt and continues with P2. -/
theorem C3_provider_fallback_witness :
    tryProviders envFirstProviderFails spA ["P1", "P2"] =
      ((tryProviders envFirstProviderFails spA ["P2"]).1,
        .ensureCall "P1/a.deb" "shaA" :: (tryProviders envFirstProviderFails spA ["P2"]).2) :=
  (C3_provider_fallback envFirstProviderFails spA "P1" ["P2"] "P1/a.deb" "boom"
    (by rfl) (by rfl)).1 (by simp)

/-- C9: on both the debian and the alpine driver,
`IsPackageVersionInstalled` applied to a FileSpec lacking the
distro-specific identity returns the "information not available" error — in
particular it does not return `.ok false`. -/
theorem C9_missing_identity_is_error
    (installedD : Except String (List (String × Dpkg)))
    (installedA : Except String (List (String × APK)))
    (sp : FileSpec) (hd : sp.dpkg = none) (ha : sp.apk = none) :
    debianIsPackageVersionInstalled installedD sp =
      .error ("dpkg information not available for " ++ sp.name) ∧
    alpineIsPackageVersionInstalled installedA sp =
      .error ("apk information not available for " ++ sp.name) := by
  constructor
  · rw [debianIsPackageVersionInstalled, hd]
  · rw [alpineIsPackageVersionInstalled, ha]

/-- Witness for C9 at a concrete input. -/
theorem C9_missing_identity_is_error_witness :
    debianIsPackageVersionInstalled (.ok []) spA =
      .error ("dpkg information not available for " ++ spA.name) ∧
    alpineIsPackageVersionInstalled (.ok []) spA =
      .error ("apk information not available for " ++ spA.name) :=
  C9_missing_identity_is_error (.ok []) (.ok []) spA (by rfl) (by rfl)

/-- C10: when resolving a spec's URL template against a provider fails, the
provider loop aborts at once with the "failed to determine the URL" error,
making no fetch attempt and ignoring the remaining providers (the result
does not depend on `rest`), and the batch fold returns that error
immediately — unlike a fetch failure, which falls through to the next
provider. -/
theorem C10_url_error_aborts (env : Env) (sp : FileSpec) (p : String)
    (rest : List String) (hurl : env.specURL sp p = none) :
    tryProviders env sp (p :: rest) =
      (.error ("failed to determine the URL of " ++ sp.name ++ " with the provider " ++ p),
       []) ∧
    ∀ (opts : Opts) (restSpecs : List FileSpec),
      skipAsInstalled env opts sp = false → cachedCheck env sp = false →
      downloadLoop env opts (p :: rest) (sp :: restSpecs) =
        (.error ("failed to determine the URL of " ++ sp.name ++ " with the provider " ++ p),
         [.cachedCall sp.sha256]) := by
  have h1 : tryProviders env sp (p :: rest) =
      (.error ("failed to determine the URL of " ++ sp.name ++ " with the provider " ++ p),
       []) := by
    rw [tryProviders, hurl]
  refine ⟨h1, ?_⟩
  intro opts restSpecs hskip hcache
  rw [downloadLoop, processSpec, if_neg (by simp [hskip]), if_neg (by simp [hcache]), h1]

/-- Witness for C10 at a concrete input. -/
theorem C10_url_error_aborts_witness :
    tryProviders envNoURL spA ["P1"] =
      (.error ("failed to determine the URL of " ++ spA.name ++ " with the provider " ++ "P1"),
       []) :=
  (C10_url_error_aborts envNoURL spA "P1" [] (by rfl)).1

/-- C8: on both the debian and the alpine driver (the latter with its cache
present), `GenerateHash` with an empty name filter defaults to the keys of
the installed-package enumeration, sorted, and fails with
"no package is installed?" when that enumeration is empty. -/
theorem C8_generate_hash_defaults (keys : List String) (hne : keys ≠ []) :
    debianGenerateHashNames (.ok []) [] = .error "no package is installed?" ∧
    alpineGenerateHashNames true (.ok []) [] = .error "no package is installed?" ∧
    debianGenerateHashNames (.ok keys) [] = .ok (sortStrings keys) ∧
    alpineGenerateHashNames true (.ok keys) [] = .ok (sortStrings keys) := by
  have hke : keys.isEmpty = false := by
    simpa using hne
  refine ⟨by rfl, by rfl, ?_, ?_⟩
  · simp [debianGenerateHashNames, hke]
  · simp [alpineGenerateHashNames, hke]

/-- Witness for C8 at a concrete input. -/
theorem C8_generate_hash_defaults_witness :
    debianGenerateHashNames (.ok ["zsh", "bash"]) [] = .ok (sortStrings ["zsh", "bash"]) :=
  (C8_generate_hash_defaults ["zsh", "bash"] (by simp)).2.2.1

/-- C2, counterexample: feeding the debian hash generator the same
(package, architecture) key with the lower version "1.0" first and the
higher version "2.0" second produces BOTH entries — the streaming writer has
already emitted the lower version's line when the higher one arrives
(debian.go lines 115-149), refuting the claim that in either order only the
highest version's entry is retained. -/
theorem C2_counterexample :
    generateHash debVersionParse debVersionCompare keepAll []
        [⟨"hello", "amd64", "1.0", "pool/hello_1.0_amd64.deb", "d1"⟩,
         ⟨"hello", "amd64", "2.0", "pool/hello_2.0_amd64.deb", "d2"⟩] =
      [("d1", "pool/hello_1.0_amd64.deb"), ("d2", "pool/hello_2.0_amd64.deb")] ∧
    generateHash debVersionParse debVersionCompare keepAll []
        [⟨"hello", "amd64", "1.0", "pool/hello_1.0_amd64.deb", "d1"⟩,
         ⟨"hello", "amd64", "2.0", "pool/hello_2.0_amd64.deb", "d2"⟩] ≠
      [("d2", "pool/hello_2.0_amd64.deb")] := by
  constructor
  · rfl
  · decide

/-- C2 (amended): on a duplicate (package, architecture) key the generator
skips the later entry exactly when its version is lower than the recorded
one, and never retracts an emitted entry: with the higher version first only
the higher entry is produced, while with the lower version first both
entries are produced. -/
theorem C2_version_tiebreak {V : Type} (vparse : String → Option V)
    (vcmp : V → V → Int) (p1 p2 : ControlParagraph) (v1 v2 : V)
    (hpkg : p1.package = p2.package) (harch : p1.architecture = p2.architecture)
    (h1 : vparse p1.version = some v1) (h2 : vparse p2.version = some v2)
    (hf1 : p1.filename ≠ "") (hs1 : p1.sha256 ≠ "")
    (hf2 : p2.filename ≠ "") (hs2 : p2.sha256 ≠ "") :
    (vcmp v1 v2 > 0 →
      generateHash vparse vcmp keepAll [] [p1, p2] = [(p1.sha256, p1.filename)]) ∧
    (¬ vcmp v1 v2 > 0 →
      generateHash vparse vcmp keepAll [] [p1, p2] =
        [(p1.sha256, p1.filename), (p2.sha256, p2.filename)]) := by
  have hsk1 : paragraphSkipped vparse vcmp [] p1 = false := by
    simp [paragraphSkipped, alookup]
  have halk : alookup [(p1.package ++ ":" ++ p1.architecture, p1.version)]
      (p2.package ++ ":" ++ p2.architecture) = some p1.version := by
    rw [← hpkg, ← harch]
    simp [alookup]
  have hsk2 : paragraphSkipped vparse vcmp
      [(p1.package ++ ":" ++ p1.architecture, p1.version)] p2 =
      decide (vcmp v1 v2 > 0) := by
    simp only [paragraphSkipped, halk, h1, h2]
  constructor
  · intro hcmp
    simp only [generateHash, hsk1, Bool.false_eq_true, if_false, if_neg hf1, if_neg hs1,
      keepAll, if_true, hsk2, decide_eq_true_eq, if_pos hcmp]
  · intro hcmp
    simp only [generateHash, hsk1, Bool.false_eq_true, if_false, if_neg hf1, if_neg hs1,
      keepAll, if_true, hsk2, decide_eq_true_eq, if_neg hcmp, if_neg hf2, if_neg hs2]

/-- Witness for C2 (amended) at concrete inputs: versions "2.0" then "1.0"
for the same key yield only the "2.0" entry. -/
theorem C2_version_tiebreak_witness :
    generateHash debVersionParse debVersionCompare keepAll []
        [⟨"hello", "amd64", "2.0", "pool/hello_2.0_amd64.deb", "d2"⟩,
         ⟨"hello", "amd64", "1.0", "pool/hello_1.0_amd64.deb", "d1"⟩] =
      [("d2", "pool/hello_2.0_amd64.deb")] :=
  (C2_version_tiebreak debVersionParse debVersionCompare
    ⟨"hello", "amd64", "2.0", "pool/hello_2.0_amd64.deb", "d2"⟩
    ⟨"hello", "amd64", "1.0", "pool/hello_1.0_amd64.deb", "d1"⟩
    ⟨0, ['2', '.', '0'], []⟩ ⟨0, ['1', '.', '0'], []⟩
    (by rfl) (by rfl) (by rfl) (by rfl)
    (by simp) (by simp) (by simp) (by simp)).1 (by decide)

/-- C4: generating with the dedupe wrapper produces exactly the entries of a
plain generation run minus those whose filename is present in the prior
manifest with the identical digest — an entry is suppressed iff the prior
manifest maps its filename to the same digest, and entries that are new or
whose digest changed are kept. (The wrapper's missing-key default `""` can
never equal a produced digest, since the generator drops empty-SHA256
paragraphs.) -/
theorem C4_dedupe_filter {V : Type} (vparse : String → Option V) (vcmp : V → V → Int)
    (oldSums : List (String × String)) (paras : List ControlParagraph) :
    generateHash vparse vcmp (dedupeKeep oldSums) [] paras =
      (generateHash vparse vcmp keepAll [] paras).filter
        (fun e => decide (alookup oldSums e.2 ≠ some e.1)) := by
  rw [generateHash_filter]
  apply List.filter_congr
  intro e he
  have hne : e.1 ≠ "" := generateHash_sha_ne vparse vcmp keepAll paras [] e he
  simp only [dedupeKeep]
  cases halk : alookup oldSums e.2 with
  | none =>
    simp [Option.getD_none, Ne.symm hne]
  | some v =>
    simp [Option.getD_some, decide_not]

/-- C7: `Download` walks the file specs sorted ascending by their filename
keys (the sorted pair list is key-ordered and a permutation of the input),
and is therefore deterministic: two association lists denoting the same Go
map — permutations of one another with unique keys — produce identical
results and traces. -/
theorem C7_deterministic_order (fileSpecs fileSpecs2 : List (String × FileSpec))
    (hperm : fileSpecs.Perm fileSpecs2) (hnd : (fileSpecs.map Prod.fst).Nodup) :
    List.Pairwise (fun a b => keyLE a b = true) (sortPairs fileSpecs) ∧
    (sortPairs fileSpecs).Perm fileSpecs ∧
    ∀ (env : Env) (info : Info) (opts : Opts),
      Download env info fileSpecs opts = Download env info fileSpecs2 opts := by
  haveI : IsTotal (String × FileSpec) (fun a b => keyLE a b = true) :=
    ⟨fun a b => strLE_total a.1 b.1⟩
  haveI : IsTrans (String × FileSpec) (fun a b => keyLE a b = true) :=
    ⟨fun a b c => strLE_trans⟩
  refine ⟨List.sorted_insertionSort _ _, List.perm_insertionSort _ _, ?_⟩
  intro env info opts
  have heq : sortPairs fileSpecs = sortPairs fileSpecs2 := by
    apply key_sorted_perm_eq
    · exact (List.perm_insertionSort _ _).trans
        (hperm.trans (List.perm_insertionSort _ _).symm)
    · exact (((List.perm_insertionSort _ fileSpecs).map Prod.fst).symm).nodup hnd
    · exact List.sorted_insertionSort _ _
    · exact List.sorted_insertionSort _ _
  simp only [Download, heq]

/-- Witness for C7 at a concrete input: the two orders of a two-spec map
give identical downloads. -/
theorem C7_deterministic_order_witness :
    Download envPlain ⟨[]⟩ [("b", spB), ("a", spA)] ⟨["P1"], false⟩ =
      Download envPlain ⟨[]⟩ [("a", spA), ("b", spB)] ⟨["P1"], false⟩ :=
  (C7_deterministic_order [("b", spB), ("a", spA)] [("a", spA), ("b", spB)]
    (List.Perm.swap ("a", spA) ("b", spB) []) (by simp [spA, spB])).2.2
    envPlain ⟨[]⟩ ⟨["P1"], false⟩

end ReproGet
